import Mathlib

/-!
Shallow embedding of three hydrogram source files:

* `hydrogram/types/user_and_chats/chat_member.py` — the pure mapping
  `ChatMember._parse` from wire-level participant records to the public
  `ChatMember` value, resolving ids against side-loaded user/chat tables;
* `hydrogram/methods/messages/forward_messages.py` — the response handling of
  `forward_messages`: filtering the gateway's update list down to new-message
  updates and the scalar-vs-list return convention;
* `hydrogram/methods/users/get_chat_photos.py` — both pagination modes of
  `get_chat_photos`: the channel merge of current photo with search results
  plus the limit-counting yield loop, and the cursor-paginated user-photos
  loop.

Wire-level payloads that the claims never inspect (user snapshots, admin
rights, permissions) are carried as small opaque records; the control flow,
branching and arithmetic are translated statement by statement from the
Python source.
-/

namespace Hydrogram

/-- Wire-level user snapshot from a side-loaded `users` table
(`raw.base.User`).  Only the id is ever consulted by the code under study. -/
structure RawUser where
  id : Nat
deriving DecidableEq, Repr

/-- Wire-level chat snapshot from a side-loaded `chats` table
(`raw.base.Chat`). -/
structure RawChat where
  id : Nat
deriving DecidableEq, Repr

/-- Public `types.User` value as produced by `types.User._parse`. -/
structure User where
  id : Nat
deriving DecidableEq, Repr

/-- Public `types.Chat` value as produced by `types.Chat._parse_chat`. -/
structure Chat where
  id : Nat
deriving DecidableEq, Repr

/-- Embedding of `types.User._parse(client, raw_user)`: builds the public user value from
the raw snapshot.  The claims only track identity, so the embedding keeps the
id. -/
def User.parse (u : RawUser) : User := ⟨u.id⟩

/-- Embedding of `types.Chat._parse_chat(client, raw_chat)`. -/
def Chat.parse (c : RawChat) : Chat := ⟨c.id⟩

/-- Peer reference (`raw.types.PeerUser / PeerChat / PeerChannel`) carried by
`ChannelParticipantBanned.peer` and `ChannelParticipantLeft.peer`. -/
inductive Peer where
  | user (user_id : Nat)
  | chat (chat_id : Nat)
  | channel (channel_id : Nat)
deriving DecidableEq, Repr

/-- Embedding of `utils.get_raw_peer_id(peer)`: extracts the bare numeric id from a peer
reference (this helper lives outside the excerpt; it returns the variant's
only id field). -/
def get_raw_peer_id : Peer → Nat
  | .user i => i
  | .chat i => i
  | .channel i => i

/-- True exactly when the peer reference is a `PeerUser`
(`isinstance(peer, raw.types.PeerUser)` in the source). -/
def Peer.isUser : Peer → Bool
  | .user _ => true
  | _ => false

/-- Restriction set (`raw.types.ChatBannedRights`) attached to a banned or
restricted participant.  The code reads `view_messages` and `until_date`;
other flags are irrelevant to the claims and omitted. -/
structure ChatBannedRights where
  view_messages : Bool
  until_date : Nat
deriving DecidableEq, Repr

/-- Admin rights record (`raw.types.ChatAdminRights`): opaque to the code under study (only passed
through `ChatPrivileges._parse`), carried as a token. -/
structure ChatAdminRights where
  flags : Nat
deriving DecidableEq, Repr

/-- Public `types.ChatPermissions` as produced by `ChatPermissions._parse`; the
translation of the flags happens outside the excerpt, so the embedding keeps
the rights record it was built from. -/
structure ChatPermissions where
  rights : ChatBannedRights
deriving DecidableEq, Repr

/-- Embedding of `ChatPermissions._parse(banned_rights)`. -/
def ChatPermissions.parse (r : ChatBannedRights) : ChatPermissions := ⟨r⟩

/-- Public `types.ChatPrivileges` as produced by `ChatPrivileges._parse`. -/
structure ChatPrivileges where
  rights : ChatAdminRights
deriving DecidableEq, Repr

/-- Embedding of `ChatPrivileges._parse(admin_rights)`. -/
def ChatPrivileges.parse (r : ChatAdminRights) : ChatPrivileges := ⟨r⟩

/-- Embedding of `utils.timestamp_to_datetime`: a zero/absent wire timestamp maps to an
absent datetime, any other value to a present one (datetimes are kept as raw
timestamps; the helper lives outside the excerpt). -/
def timestamp_to_datetime (ts : Nat) : Option Nat :=
  if ts = 0 then none else some ts

/-- Status enum `enums.ChatMemberStatus`. -/
inductive ChatMemberStatus where
  | OWNER
  | ADMINISTRATOR
  | MEMBER
  | RESTRICTED
  | BANNED
  | LEFT
deriving DecidableEq, Repr

/-- The discriminated union of membership records accepted by
`ChatMember._parse` (`raw.base.ChatParticipant` and
`raw.base.ChannelParticipant`).  Each constructor carries exactly the fields
the source reads from that variant.  `unknownVariant` stands for any record
that is none of the nine known variants (the wire protocol may grow new
ones). -/
inductive Member where
  | chatParticipant (user_id inviter_id date : Nat)
  | chatParticipantAdmin (user_id inviter_id date : Nat)
  | chatParticipantCreator (user_id : Nat)
  | channelParticipant (user_id date : Nat)
  | channelParticipantAdmin (user_id : Nat) (inviter_id : Option Nat)
      (promoted_by date : Nat) (rank : Option String) (can_edit : Bool)
      (admin_rights : ChatAdminRights)
  | channelParticipantBanned (peer : Peer) (left : Bool) (kicked_by date : Nat)
      (banned_rights : ChatBannedRights)
  | channelParticipantCreator (user_id : Nat) (rank : Option String)
      (admin_rights : ChatAdminRights)
  | channelParticipantLeft (peer : Peer)
  | channelParticipantSelf (user_id inviter_id date : Nat)
  | unknownVariant
deriving DecidableEq, Repr

/-- The normalized `ChatMember` value.  Every optional field defaults to
absent; `_parse` populates exactly the fields meaningful for the source
variant. -/
structure ChatMember where
  status : ChatMemberStatus
  user : Option User := none
  chat : Option Chat := none
  custom_title : Option String := none
  until_date : Option Nat := none
  joined_date : Option Nat := none
  invited_by : Option User := none
  promoted_by : Option User := none
  restricted_by : Option User := none
  is_member : Option Bool := none
  can_be_edited : Option Bool := none
  permissions : Option ChatPermissions := none
  privileges : Option ChatPrivileges := none
deriving DecidableEq, Repr

/-- A lookup miss in a side-loaded table (Python `KeyError` on
`users[i]` / `chats[i]`). -/
inductive ParseErr where
  | keyError (id : Nat)
deriving DecidableEq, Repr

/-- Lookup `users[i]` followed by `types.User._parse`: a miss is a hard failure. -/
def lookupUser (users : Nat → Option RawUser) (i : Nat) : Except ParseErr User :=
  match users i with
  | some u => .ok (User.parse u)
  | none => .error (.keyError i)

/-- Lookup `chats[i]` followed by `types.Chat._parse_chat`: a miss is a hard
failure. -/
def lookupChat (chats : Nat → Option RawChat) (i : Nat) : Except ParseErr Chat :=
  match chats i with
  | some c => .ok (Chat.parse c)
  | none => .error (.keyError i)

/-- Embedding of `ChatMember._parse(client, member, users, chats)` translated clause by
clause.  The result distinguishes a lookup failure (`.error`), the sentinel
`None` returned for an unrecognized variant (`.ok none`), and a parsed member
(`.ok (some _)`). -/
def ChatMember.parse (member : Member) (users : Nat → Option RawUser)
    (chats : Nat → Option RawChat) : Except ParseErr (Option ChatMember) :=
  match member with
  | .chatParticipant user_id inviter_id date => do
      let u ← lookupUser users user_id
      let inv ← lookupUser users inviter_id
      return some { status := .MEMBER, user := some u,
                    joined_date := timestamp_to_datetime date,
                    invited_by := some inv }
  | .chatParticipantAdmin user_id inviter_id date => do
      let u ← lookupUser users user_id
      let inv ← lookupUser users inviter_id
      return some { status := .ADMINISTRATOR, user := some u,
                    joined_date := timestamp_to_datetime date,
                    invited_by := some inv }
  | .chatParticipantCreator user_id => do
      let u ← lookupUser users user_id
      return some { status := .OWNER, user := some u }
  | .channelParticipant user_id date => do
      let u ← lookupUser users user_id
      return some { status := .MEMBER, user := some u,
                    joined_date := timestamp_to_datetime date }
  | .channelParticipantAdmin user_id inviter_id promoted_by date rank can_edit admin_rights => do
      let u ← lookupUser users user_id
      let promoter ← lookupUser users promoted_by
      let inv ← match inviter_id with
        | some i =>
            if i ≠ 0 then do
              let v ← lookupUser users i
              pure (some v)
            else pure none
        | none => pure none
      return some { status := .ADMINISTRATOR, user := some u,
                    joined_date := timestamp_to_datetime date,
                    promoted_by := some promoter,
                    invited_by := inv,
                    custom_title := rank,
                    can_be_edited := some can_edit,
                    privileges := some (ChatPrivileges.parse admin_rights) }
  | .channelParticipantBanned peer left kicked_by date banned_rights => do
      let peer_id := get_raw_peer_id peer
      let user ←
        if peer.isUser then do
          let u ← lookupUser users peer_id
          pure (some u)
        else pure none
      let chat ←
        if peer.isUser then pure none
        else do
          let c ← lookupChat chats peer_id
          pure (some c)
      let rb ← lookupUser users kicked_by
      return some { status := if banned_rights.view_messages then .BANNED else .RESTRICTED,
                    user := user,
                    chat := chat,
                    until_date := timestamp_to_datetime banned_rights.until_date,
                    joined_date := timestamp_to_datetime date,
                    is_member := some (!left),
                    restricted_by := some rb,
                    permissions := some (ChatPermissions.parse banned_rights) }
  | .channelParticipantCreator user_id rank admin_rights => do
      let u ← lookupUser users user_id
      return some { status := .OWNER, user := some u,
                    custom_title := rank,
                    privileges := some (ChatPrivileges.parse admin_rights) }
  | .channelParticipantLeft peer => do
      let peer_id := get_raw_peer_id peer
      let user ←
        if peer.isUser then do
          let u ← lookupUser users peer_id
          pure (some u)
        else pure none
      let chat ←
        if peer.isUser then pure none
        else do
          let c ← lookupChat chats peer_id
          pure (some c)
      return some { status := .LEFT, user := user, chat := chat }
  | .channelParticipantSelf user_id inviter_id date => do
      let u ← lookupUser users user_id
      let inv ← lookupUser users inviter_id
      return some { status := .MEMBER, user := some u,
                    joined_date := timestamp_to_datetime date,
                    invited_by := some inv }
  | .unknownVariant => .ok none

/-! ## get_chat_photos -/

/-- A parsed `types.Photo`.  The channel merge compares photos by their
`file_id`, which is the only field the code under study reads. -/
structure Photo where
  file_id : Nat
deriving DecidableEq, Repr

/-- The channel-branch merge of `get_chat_photos` (lines 82-88 of
`get_chat_photos.py`): `current` is the full-channel current photo (absent
when the channel has none), `extra` is the list of new-chat-photo fields of
the chat-photo-change search results, newest first.

```
if extra := [message.new_chat_photo for message in r]:
    if current:
        photos = ([current, *extra]) if current.file_id != extra[0].file_id else extra
    else:
        photos = extra
else:
    photos = [current] if current else []
``` -/
def channelPhotos (current : Option Photo) (extra : List Photo) : List Photo :=
  match extra with
  | e :: rest =>
      match current with
      | some c => if c.file_id ≠ e.file_id then c :: e :: rest else e :: rest
      | none => e :: rest
  | [] =>
      match current with
      | some c => [c]
      | none => []

/-- The channel-branch yield loop (lines 90-94 of `get_chat_photos.py`):

```
for current, photo in enumerate(photos, start=1):
    yield photo
    if current >= limit:
        return
```

`counter` is the 1-based `enumerate` counter; the generator yields a photo
and then returns as soon as `counter >= limit`. -/
def yieldLoop : List Photo → Nat → Nat → List Photo
  | [], _, _ => []
  | p :: rest, counter, limit =>
      if counter ≥ limit then [p] else p :: yieldLoop rest (counter + 1) limit

/-- The full sequence of photos yielded by the channel branch of
`get_chat_photos` for a channel whose current photo is `current` and whose
chat-photo-change search results are `extra`, with the given `limit`
argument. -/
def channelYield (current : Option Photo) (extra : List Photo) (limit : Nat) :
    List Photo :=
  yieldLoop (channelPhotos current extra) 1 limit

/-- The user-branch pagination loop of `get_chat_photos` (lines 101-121):

```
while True:
    r = await self.invoke(raw.functions.photos.GetUserPhotos(
            user_id=peer_id, offset=offset, max_id=0, limit=limit))
    photos = [types.Photo._parse(self, photo) for photo in r.photos]
    if not photos:
        return
    offset += len(photos)
    for photo in photos:
        yield photo
        current += 1
        if current >= total:
            return
```

The gateway is modelled by a backing `store` of photos: the `GetUserPhotos`
RPC with a given `offset` and page size returns
`(store.drop offset).take pageLimit`.  The result is the pair of the yielded
photos and the trace of page sizes requested, one entry per RPC round.  The
`while True` loop is driven by fuel; `getChatPhotosUser` supplies enough fuel
for the loop to always reach its own exit. -/
def userLoop (store : List Photo) (pageLimit total : Nat) :
    Nat → Nat → Nat → List Photo × List Nat
  | _, _, 0 => ([], [])
  | offset, current, fuel + 1 =>
      let page := (store.drop offset).take pageLimit
      if page.isEmpty then ([], [pageLimit])
      else if total ≤ current + page.length then
        (page.take (total - current), [pageLimit])
      else
        let r := userLoop store pageLimit total (offset + page.length)
          (current + page.length) fuel
        (page ++ r.1, pageLimit :: r.2)

/-- The user branch of `get_chat_photos` (lines 96-121): initialisation

```
current = 0
total = limit or (1 << 31)
limit = min(100, total)
offset = 0
```

followed by the pagination loop.  Returns the yielded photos and the trace of
page sizes requested (its length is the number of RPC rounds). -/
def getChatPhotosUser (store : List Photo) (limit : Nat) : List Photo × List Nat :=
  let total := if limit = 0 then 2 ^ 31 else limit
  let pageLimit := min 100 total
  userLoop store pageLimit total 0 0 (store.length + 1)

/-- A backing store of `n` distinct photos, used for concrete scenarios. -/
def photoRange (n : Nat) : List Photo :=
  (List.range n).map fun i => ⟨i⟩

/-! ## forward_messages -/

/-- A wire-level message embedded in an update. -/
structure RawMessage where
  id : Nat
deriving DecidableEq, Repr

/-- A parsed `types.Message`.  `types.Message._parse` lives outside the
excerpt; the claims only track identity and order, so the embedding keeps the
wire id. -/
structure Message where
  id : Nat
deriving DecidableEq, Repr

/-- Embedding of `types.Message._parse(self, raw, users, chats)` restricted to what the
claims observe: it wraps the wire message. -/
def Message.parse (m : RawMessage) : Message := ⟨m.id⟩

/-- One element of the `updates` list of the gateway's response to
`messages.ForwardMessages`.  The three new-message variants carry the created
message; `other` stands for every other update kind (read-state changes and
so on), tagged so distinct foreign updates can be told apart. -/
inductive Update where
  | newMessage (message : RawMessage)
  | newChannelMessage (message : RawMessage)
  | newScheduledMessage (message : RawMessage)
  | other (kind : Nat)
deriving DecidableEq, Repr

/-- The `message_ids` argument of `forward_messages`: a single `int` or an
iterable of `int` (already materialised to a list, as `list(message_ids)`
does). -/
inductive MessageIds where
  | single (id : Int)
  | many (ids : List Int)
deriving DecidableEq, Repr

/-- The return value of `forward_messages`: a bare message for a scalar
`message_ids`, a list for an iterable one. -/
inductive ForwardResult where
  | single (message : Message)
  | many (messages : List Message)
deriving DecidableEq, Repr

/-- The failure of `forwarded_messages[0]` on an empty list
(Python `IndexError`). -/
inductive ForwardErr where
  | indexError
deriving DecidableEq, Repr

/-- The update filter of `forward_messages` (lines 107-118): keep the updates
that are `UpdateNewMessage`, `UpdateNewChannelMessage` or
`UpdateNewScheduledMessage`, in the order the gateway returned them, and take
each one's embedded message; discard every other update kind. -/
def keptMessages (updates : List Update) : List RawMessage :=
  updates.filterMap fun u =>
    match u with
    | .newMessage m => some m
    | .newChannelMessage m => some m
    | .newScheduledMessage m => some m
    | .other _ => none

/-- The response handling of `forward_messages` (lines 86-87 and 102-120):

```
is_iterable = not isinstance(message_ids, int)
message_ids = list(message_ids) if is_iterable else [message_ids]
...
forwarded_messages: list = [
    await types.Message._parse(self, i.message, users, chats)
    for i in r.updates
    if isinstance(i, (raw.types.UpdateNewMessage,
                      raw.types.UpdateNewChannelMessage,
                      raw.types.UpdateNewScheduledMessage))
]
return types.List(forwarded_messages) if is_iterable else forwarded_messages[0]
```

`updates` is the update list of the gateway's response; the request
construction (peer resolution, random ids, option fields) does not influence
the claims settled here and is part of the environment. -/
def forward_messages (message_ids : MessageIds) (updates : List Update) :
    Except ForwardErr ForwardResult :=
  let is_iterable := match message_ids with
    | .single _ => false
    | .many _ => true
  let forwarded := (keptMessages updates).map Message.parse
  if is_iterable then .ok (.many forwarded)
  else
    match forwarded with
    | m :: _ => .ok (.single m)
    | [] => .error .indexError

/-! ## Shared fixtures and helper lemmas -/

/-- A side-loaded users table containing every id (used to build concrete
parses). -/
def usersAll : Nat → Option RawUser := fun i => some ⟨i⟩

/-- A side-loaded chats table containing every id. -/
def chatsAll : Nat → Option RawChat := fun i => some ⟨i⟩

/-- A users table that contains every nonzero id but not id 0. -/
def usersPos : Nat → Option RawUser := fun i => if i = 0 then none else some ⟨i⟩

theorem exceptBind_ok {α β ε : Type} (a : α) (f : α → Except ε β) :
    (Except.ok a : Except ε α) >>= f = f a := rfl

theorem exceptBind_error {α β ε : Type} (e : ε) (f : α → Except ε β) :
    (Except.error e : Except ε α) >>= f = Except.error e := rfl

theorem exceptPure_eq_ok {α ε : Type} (a : α) :
    (pure a : Except ε α) = Except.ok a := rfl

/-! ## Claims about ChatMember.parse -/

/-- C9: for every membership record that is not one of the nine known
variants, `ChatMember._parse` returns the sentinel absence (Python `None`,
here `.ok none`) instead of raising, whatever the contents of the side-loaded
`users` and `chats` tables. -/
theorem parse_unknown_variant_is_sentinel (users : Nat → Option RawUser)
    (chats : Nat → Option RawChat) :
    ChatMember.parse .unknownVariant users chats = .ok none := rfl

/-- C6: for every `ChannelParticipantBanned` record that `ChatMember._parse`
maps successfully, the resulting status is `BANNED` when the record's
restriction set forbids viewing messages and `RESTRICTED` otherwise, and
`is_member` is the negation of the record's `left` flag. -/
theorem parse_channelBanned_status_and_is_member (peer : Peer) (left : Bool)
    (kicked_by date : Nat) (rights : ChatBannedRights)
    (users : Nat → Option RawUser) (chats : Nat → Option RawChat)
    (cm : ChatMember)
    (h : ChatMember.parse (.channelParticipantBanned peer left kicked_by date rights)
        users chats = .ok (some cm)) :
    cm.status = (if rights.view_messages then ChatMemberStatus.BANNED
                 else ChatMemberStatus.RESTRICTED)
    ∧ cm.is_member = some (!left) := by
  unfold ChatMember.parse lookupUser lookupChat at h
  cases peer with
  | user uid =>
      cases hu : users uid with
      | none =>
          simp [Peer.isUser, get_raw_peer_id, hu, exceptBind_error, exceptBind_ok,
            exceptPure_eq_ok] at h
      | some u =>
          cases hk : users kicked_by with
          | none =>
              simp [Peer.isUser, get_raw_peer_id, hu, hk, exceptBind_error,
                exceptBind_ok, exceptPure_eq_ok] at h
          | some ru =>
              simp [Peer.isUser, get_raw_peer_id, hu, hk, exceptBind_error,
                exceptBind_ok, exceptPure_eq_ok] at h
              subst h
              exact ⟨rfl, rfl⟩
  | chat cid =>
      cases hc : chats cid with
      | none =>
          simp [Peer.isUser, get_raw_peer_id, hc, exceptBind_error, exceptBind_ok,
            exceptPure_eq_ok] at h
      | some c =>
          cases hk : users kicked_by with
          | none =>
              simp [Peer.isUser, get_raw_peer_id, hc, hk, exceptBind_error,
                exceptBind_ok, exceptPure_eq_ok] at h
          | some ru =>
              simp [Peer.isUser, get_raw_peer_id, hc, hk, exceptBind_error,
                exceptBind_ok, exceptPure_eq_ok] at h
              subst h
              exact ⟨rfl, rfl⟩
  | channel cid =>
      cases hc : chats cid with
      | none =>
          simp [Peer.isUser, get_raw_peer_id, hc, exceptBind_error, exceptBind_ok,
            exceptPure_eq_ok] at h
      | some c =>
          cases hk : users kicked_by with
          | none =>
              simp [Peer.isUser, get_raw_peer_id, hc, hk, exceptBind_error,
                exceptBind_ok, exceptPure_eq_ok] at h
          | some ru =>
              simp [Peer.isUser, get_raw_peer_id, hc, hk, exceptBind_error,
                exceptBind_ok, exceptPure_eq_ok] at h
              subst h
              exact ⟨rfl, rfl⟩

/-- The `ChatMember` produced for a banned member (restriction set forbids
viewing messages) of user id 7, restricted by user 3; a literal fixture. -/
def cmBannedFx : ChatMember :=
  { status := .BANNED, user := some ⟨7⟩, until_date := some 99,
    joined_date := some 11, is_member := some true, restricted_by := some ⟨3⟩,
    permissions := some ⟨⟨true, 99⟩⟩ }

/-- The `ChatMember` produced for a restricted (but not banned) chat-as-sender
of chat id 9 that has left; a literal fixture. -/
def cmRestrictedFx : ChatMember :=
  { status := .RESTRICTED, chat := some ⟨9⟩, until_date := none,
    joined_date := some 11, is_member := some false, restricted_by := some ⟨3⟩,
    permissions := some ⟨⟨false, 0⟩⟩ }

/-- C6 witness: both restriction branches at literal fixtures, obtained by
applying the theorem to two concrete successful parses. -/
theorem parse_channelBanned_status_and_is_member_witness :
    (cmBannedFx.status
        = (if (true : Bool) then ChatMemberStatus.BANNED else ChatMemberStatus.RESTRICTED)
      ∧ cmBannedFx.is_member = some (!false))
    ∧ (cmRestrictedFx.status
        = (if (false : Bool) then ChatMemberStatus.BANNED else ChatMemberStatus.RESTRICTED)
      ∧ cmRestrictedFx.is_member = some (!true)) :=
  ⟨parse_channelBanned_status_and_is_member (.user 7) false 3 11 ⟨true, 99⟩
      usersAll chatsAll cmBannedFx rfl,
   parse_channelBanned_status_and_is_member (.chat 9) true 3 11 ⟨false, 0⟩
      usersAll chatsAll cmRestrictedFx rfl⟩

/-- C7: for every `ChannelParticipantBanned` and `ChannelParticipantLeft`
record that `ChatMember._parse` maps successfully, the mapper branches on the
kind of the record's peer reference: a user peer populates `user` from the
`users` table and leaves `chat` absent; a chat/channel peer populates `chat`
from the `chats` table and leaves `user` absent; in no case are both
populated. -/
theorem parse_peer_kind_branches (peer : Peer) (left : Bool)
    (kicked_by date : Nat) (rights : ChatBannedRights)
    (users : Nat → Option RawUser) (chats : Nat → Option RawChat) :
    (∀ cm, ChatMember.parse (.channelParticipantBanned peer left kicked_by date rights)
        users chats = .ok (some cm) →
        ((peer.isUser = true →
            (∃ u, users (get_raw_peer_id peer) = some u ∧ cm.user = some (User.parse u))
            ∧ cm.chat = none)
          ∧ (peer.isUser = false →
            (∃ c, chats (get_raw_peer_id peer) = some c ∧ cm.chat = some (Chat.parse c))
            ∧ cm.user = none)
          ∧ (cm.user = none ∨ cm.chat = none)))
    ∧ (∀ cm, ChatMember.parse (.channelParticipantLeft peer) users chats
        = .ok (some cm) →
        ((peer.isUser = true →
            (∃ u, users (get_raw_peer_id peer) = some u ∧ cm.user = some (User.parse u))
            ∧ cm.chat = none)
          ∧ (peer.isUser = false →
            (∃ c, chats (get_raw_peer_id peer) = some c ∧ cm.chat = some (Chat.parse c))
            ∧ cm.user = none)
          ∧ (cm.user = none ∨ cm.chat = none))) := by
  constructor
  · intro cm h
    unfold ChatMember.parse lookupUser lookupChat at h
    cases peer with
    | user uid =>
        cases hu : users uid with
        | none => simp [Peer.isUser, get_raw_peer_id, hu, exceptBind_error,
            exceptBind_ok, exceptPure_eq_ok] at h
        | some u =>
            cases hk : users kicked_by with
            | none => simp [Peer.isUser, get_raw_peer_id, hu, hk, exceptBind_error,
                exceptBind_ok, exceptPure_eq_ok] at h
            | some ru =>
                simp [Peer.isUser, get_raw_peer_id, hu, hk, exceptBind_error,
                  exceptBind_ok, exceptPure_eq_ok] at h
                subst h
                exact ⟨fun _ => ⟨⟨u, hu, rfl⟩, rfl⟩, fun hf => by simp [Peer.isUser] at hf,
                  Or.inr rfl⟩
    | chat cid =>
        cases hc : chats cid with
        | none => simp [Peer.isUser, get_raw_peer_id, hc, exceptBind_error,
            exceptBind_ok, exceptPure_eq_ok] at h
        | some c =>
            cases hk : users kicked_by with
            | none => simp [Peer.isUser, get_raw_peer_id, hc, hk, exceptBind_error,
                exceptBind_ok, exceptPure_eq_ok] at h
            | some ru =>
                simp [Peer.isUser, get_raw_peer_id, hc, hk, exceptBind_error,
                  exceptBind_ok, exceptPure_eq_ok] at h
                subst h
                exact ⟨fun hf => by simp [Peer.isUser] at hf,
                  fun _ => ⟨⟨c, hc, rfl⟩, rfl⟩, Or.inl rfl⟩
    | channel cid =>
        cases hc : chats cid with
        | none => simp [Peer.isUser, get_raw_peer_id, hc, exceptBind_error,
            exceptBind_ok, exceptPure_eq_ok] at h
        | some c =>
            cases hk : users kicked_by with
            | none => simp [Peer.isUser, get_raw_peer_id, hc, hk, exceptBind_error,
                exceptBind_ok, exceptPure_eq_ok] at h
            | some ru =>
                simp [Peer.isUser, get_raw_peer_id, hc, hk, exceptBind_error,
                  exceptBind_ok, exceptPure_eq_ok] at h
                subst h
                exact ⟨fun hf => by simp [Peer.isUser] at hf,
                  fun _ => ⟨⟨c, hc, rfl⟩, rfl⟩, Or.inl rfl⟩
  · intro cm h
    unfold ChatMember.parse lookupUser lookupChat at h
    cases peer with
    | user uid =>
        cases hu : users uid with
        | none => simp [Peer.isUser, get_raw_peer_id, hu, exceptBind_error,
            exceptBind_ok, exceptPure_eq_ok] at h
        | some u =>
            simp [Peer.isUser, get_raw_peer_id, hu, exceptBind_error,
              exceptBind_ok, exceptPure_eq_ok] at h
            subst h
            exact ⟨fun _ => ⟨⟨u, hu, rfl⟩, rfl⟩, fun hf => by simp [Peer.isUser] at hf,
              Or.inr rfl⟩
    | chat cid =>
        cases hc : chats cid with
        | none => simp [Peer.isUser, get_raw_peer_id, hc, exceptBind_error,
            exceptBind_ok, exceptPure_eq_ok] at h
        | some c =>
            simp [Peer.isUser, get_raw_peer_id, hc, exceptBind_error,
              exceptBind_ok, exceptPure_eq_ok] at h
            subst h
            exact ⟨fun hf => by simp [Peer.isUser] at hf,
              fun _ => ⟨⟨c, hc, rfl⟩, rfl⟩, Or.inl rfl⟩
    | channel cid =>
        cases hc : chats cid with
        | none => simp [Peer.isUser, get_raw_peer_id, hc, exceptBind_error,
            exceptBind_ok, exceptPure_eq_ok] at h
        | some c =>
            simp [Peer.isUser, get_raw_peer_id, hc, exceptBind_error,
              exceptBind_ok, exceptPure_eq_ok] at h
            subst h
            exact ⟨fun hf => by simp [Peer.isUser] at hf,
              fun _ => ⟨⟨c, hc, rfl⟩, rfl⟩, Or.inl rfl⟩

/-- The `ChatMember` produced for a `ChannelParticipantLeft` whose peer is
channel id 9; a literal fixture. -/
def cmLeftChannelFx : ChatMember := { status := .LEFT, chat := some ⟨9⟩ }

/-- C7 witness: a banned record with a user peer populates `user` only, and a
left record with a channel peer populates `chat` only, obtained by applying
the theorem to concrete successful parses. -/
theorem parse_peer_kind_branches_witness :
    ((∃ u, usersAll 7 = some u ∧ cmBannedFx.user = some (User.parse u))
      ∧ cmBannedFx.chat = none)
    ∧ ((∃ c, chatsAll 9 = some c ∧ cmLeftChannelFx.chat = some (Chat.parse c))
      ∧ cmLeftChannelFx.user = none) :=
  ⟨((parse_peer_kind_branches (.user 7) false 3 11 ⟨true, 99⟩ usersAll chatsAll).1
      cmBannedFx rfl).1 rfl,
   (((parse_peer_kind_branches (.channel 9) false 3 11 ⟨true, 99⟩ usersAll chatsAll).2
      cmLeftChannelFx rfl).2).1 rfl⟩

/-- C8: for every `ChannelParticipantAdmin` record whose inviter id is absent
or zero, `ChatMember._parse` sets `invited_by` to absent without consulting
the users table for it: the parse succeeds with `invited_by = none` for any
table that resolves the subject and the promoter, even one with no entry for
id 0. -/
theorem parse_channelAdmin_zero_inviter (user_id : Nat) (inviter_id : Option Nat)
    (promoted_by date : Nat) (rank : Option String) (can_edit : Bool)
    (ar : ChatAdminRights) (users : Nat → Option RawUser)
    (chats : Nat → Option RawChat) (u v : RawUser)
    (hinv : inviter_id = none ∨ inviter_id = some 0)
    (hu : users user_id = some u) (hv : users promoted_by = some v) :
    ChatMember.parse
        (.channelParticipantAdmin user_id inviter_id promoted_by date rank can_edit ar)
        users chats
      = .ok (some { status := .ADMINISTRATOR, user := some (User.parse u),
                    joined_date := timestamp_to_datetime date,
                    promoted_by := some (User.parse v), invited_by := none,
                    custom_title := rank, can_be_edited := some can_edit,
                    privileges := some (ChatPrivileges.parse ar) }) := by
  rcases hinv with h | h <;>
    subst h <;>
    simp [ChatMember.parse, lookupUser, hu, hv, exceptBind_error, exceptBind_ok,
      exceptPure_eq_ok]

/-- C8 witness: a concrete admin record with inviter id 0 parsed against a
table that has no entry for id 0, by applying the theorem. -/
theorem parse_channelAdmin_zero_inviter_witness :
    ChatMember.parse
        (.channelParticipantAdmin 7 (some 0) 8 11 (some "boss") true ⟨5⟩)
        usersPos chatsAll
      = .ok (some { status := .ADMINISTRATOR, user := some (User.parse ⟨7⟩),
                    joined_date := timestamp_to_datetime 11,
                    promoted_by := some (User.parse ⟨8⟩), invited_by := none,
                    custom_title := some "boss", can_be_edited := some true,
                    privileges := some (ChatPrivileges.parse ⟨5⟩) }) :=
  parse_channelAdmin_zero_inviter 7 (some 0) 8 11 (some "boss") true ⟨5⟩
    usersPos chatsAll ⟨7⟩ ⟨8⟩ (Or.inr rfl) rfl rfl

/-! ## Claims about forward_messages -/

/-- C3: a scalar `message_ids` never produces a list result (whenever the
call returns, it returns a bare message), and any iterable `message_ids` —
including a length-1 iterable — always produces a list result. -/
theorem forward_scalar_vs_iterable :
    (∀ (i : Int) (updates : List Update) (r : ForwardResult),
        forward_messages (.single i) updates = .ok r → ∃ m, r = .single m)
    ∧ (∀ (ids : List Int) (updates : List Update),
        forward_messages (.many ids) updates
          = .ok (.many ((keptMessages updates).map Message.parse))) := by
  constructor
  · intro i updates r h
    unfold forward_messages at h
    cases hm : (keptMessages updates).map Message.parse with
    | nil => simp [hm] at h
    | cons m rest =>
        simp [hm] at h
        exact ⟨m, h.symm⟩
  · intro ids updates
    rfl

/-- C3 witness: the scalar case at a concrete gateway response, and the
length-1 iterable case, by applying the theorem. -/
theorem forward_scalar_vs_iterable_witness :
    (∃ m, ForwardResult.single (Message.parse ⟨3⟩) = ForwardResult.single m)
    ∧ forward_messages (.many [5]) [.newMessage ⟨3⟩]
        = .ok (.many [Message.parse ⟨3⟩]) :=
  ⟨forward_scalar_vs_iterable.1 7 [.newMessage ⟨3⟩]
      (.single (Message.parse ⟨3⟩)) rfl,
   forward_scalar_vs_iterable.2 [5] [.newMessage ⟨3⟩]⟩

/-- C4: `forward_messages` keeps exactly the updates whose variant is
new-message, new-channel-message or new-scheduled-message, discards every
other update kind, and returns the kept messages in the order of the
gateway's update list; a response with two new-message updates and one
read-state update produces a result of length 2 in gateway order. -/
theorem forward_keeps_new_message_updates_in_order (us1 us2 : List Update)
    (m : RawMessage) (k : Nat) :
    keptMessages [] = []
    ∧ keptMessages (Update.newMessage m :: us2) = m :: keptMessages us2
    ∧ keptMessages (Update.newChannelMessage m :: us2) = m :: keptMessages us2
    ∧ keptMessages (Update.newScheduledMessage m :: us2) = m :: keptMessages us2
    ∧ keptMessages (Update.other k :: us2) = keptMessages us2
    ∧ keptMessages (us1 ++ us2) = keptMessages us1 ++ keptMessages us2
    ∧ (∀ (ids : List Int) (a b : RawMessage),
        forward_messages (.many ids)
            [Update.newMessage a, Update.other k, Update.newMessage b]
          = .ok (.many [Message.parse a, Message.parse b])) := by
  refine ⟨rfl, rfl, rfl, rfl, rfl, ?_, fun ids a b => rfl⟩
  unfold keptMessages
  exact List.filterMap_append us1 us2 _

/-- C10: when `message_ids` is a single integer and the gateway's update list
contains no new-message update, `forward_messages` fails by indexing the
empty result list; conversely, as soon as the gateway returns at least one
new-message update the scalar call returns the first kept message bare. -/
theorem forward_scalar_empty_updates_fails (i : Int) (updates : List Update) :
    (keptMessages updates = [] →
        forward_messages (.single i) updates = .error .indexError)
    ∧ (∀ (m : RawMessage) (rest : List RawMessage), keptMessages updates = m :: rest →
        forward_messages (.single i) updates = .ok (.single (Message.parse m))) := by
  constructor
  · intro h
    unfold forward_messages
    simp [h]
  · intro m rest h
    unfold forward_messages
    simp [h]

/-- C10 witness: a response of two read-state-style updates makes the scalar
call fail with the index error, while a response carrying one new scheduled
message makes it return that message bare; both by applying the theorem. -/
theorem forward_scalar_empty_updates_fails_witness :
    forward_messages (.single 5) [.other 0, .other 1] = .error .indexError
    ∧ forward_messages (.single 5) [.other 0, .newScheduledMessage ⟨4⟩]
        = .ok (.single (Message.parse ⟨4⟩)) :=
  ⟨(forward_scalar_empty_updates_fails 5 [.other 0, .other 1]).1 rfl,
   (forward_scalar_empty_updates_fails 5 [.other 0, .newScheduledMessage ⟨4⟩]).2
      ⟨4⟩ [] rfl⟩

/-! ## Claims about get_chat_photos -/

/-- C2: the channel photo sequence before the limit loop: with at least one
search result, the current photo is prepended exactly when its file id
differs from the newest search result; with matching file ids the search
results stand alone (no duplicate); with no search results the sequence is
the current photo alone when present and empty otherwise. -/
theorem channel_merge_rule (c e : Photo) (rest extra : List Photo) :
    (c.file_id ≠ e.file_id → channelPhotos (some c) (e :: rest) = c :: e :: rest)
    ∧ (c.file_id = e.file_id → channelPhotos (some c) (e :: rest) = e :: rest)
    ∧ channelPhotos (some c) [] = [c]
    ∧ channelPhotos none extra = extra := by
  refine ⟨fun hne => ?_, fun heq => ?_, rfl, ?_⟩
  · simp [channelPhotos, hne]
  · simp [channelPhotos, heq]
  · cases extra <;> rfl

/-- C2 witness: both identity branches at concrete photos, by applying the
theorem. -/
theorem channel_merge_rule_witness :
    channelPhotos (some ⟨1⟩) [⟨2⟩, ⟨3⟩] = [⟨1⟩, ⟨2⟩, ⟨3⟩]
    ∧ channelPhotos (some ⟨1⟩) [⟨1⟩, ⟨3⟩] = [⟨1⟩, ⟨3⟩] :=
  ⟨(channel_merge_rule ⟨1⟩ ⟨2⟩ [⟨3⟩] []).1 (by decide),
   (channel_merge_rule ⟨1⟩ ⟨1⟩ [⟨3⟩] []).2.1 rfl⟩

/-- C1: at the failing input — a channel with current photo of file id 1,
chat-photo-change search results with file ids 2 and 3, and the default
`limit = 0` — the channel branch yields exactly one photo and stops, although
three are available: the loop's stop test `current >= limit` is already true
at the first 1-based index when `limit` is 0. -/
theorem channel_limit_zero_stops_after_one :
    channelYield (some ⟨1⟩) [⟨2⟩, ⟨3⟩] 0 = [⟨1⟩]
    ∧ (channelYield (some ⟨1⟩) [⟨2⟩, ⟨3⟩] 0).length = 1
    ∧ (channelPhotos (some ⟨1⟩) [⟨2⟩, ⟨3⟩]).length = 3 := by
  exact ⟨by decide, by decide, by decide⟩

/-- Helper: with a positive page size and quota not yet reached, the user
pagination loop yields exactly the next `total - current` photos of the
backing store, given fuel exceeding the store remainder. -/
theorem userLoop_yield (store : List Photo) (pageLimit total : Nat)
    (hpl : 1 ≤ pageLimit) :
    ∀ (fuel offset current : Nat), current < total →
      store.length - offset < fuel →
      (userLoop store pageLimit total offset current fuel).1
        = (store.drop offset).take (total - current) := by
  intro fuel
  induction fuel with
  | zero => intro offset current _ hf; omega
  | succ fuel ih =>
      intro offset current hc hf
      by_cases hdrop : store.drop offset = []
      · simp [userLoop, hdrop]
      · have hpage_ne : (store.drop offset).take pageLimit ≠ [] := by
          intro hnil
          rcases List.take_eq_nil_iff.mp hnil with h0 | h0
          · omega
          · exact hdrop h0
        have hie : ((store.drop offset).take pageLimit).isEmpty = false := by
          cases hie2 : ((store.drop offset).take pageLimit).isEmpty with
          | false => rfl
          | true => exact absurd (List.isEmpty_iff.mp hie2) hpage_ne
        have hlen_le : ((store.drop offset).take pageLimit).length ≤ pageLimit := by
          rw [List.length_take]
          exact Nat.min_le_left _ _
        have hlen_pos : 1 ≤ ((store.drop offset).take pageLimit).length :=
          List.length_pos.mpr hpage_ne
        have hoff : offset < store.length := by
          by_contra hgeq
          push_neg at hgeq
          exact hdrop (List.drop_eq_nil_iff.mpr hgeq)
        by_cases hstop : total ≤ current + ((store.drop offset).take pageLimit).length
        · simp only [userLoop, hie, Bool.false_eq_true, if_false, hstop, if_true]
          rw [List.take_take]
          congr 1
          rw [inf_eq_left]
          omega
        · simp only [userLoop, hie, Bool.false_eq_true, if_false, hstop, if_true]
          have ihe := ih (offset + ((store.drop offset).take pageLimit).length)
            (current + ((store.drop offset).take pageLimit).length)
            (by omega) (by omega)
          rw [ihe, ← List.drop_drop]
          have hpt : (store.drop offset).take
              ((store.drop offset).take pageLimit).length
              = (store.drop offset).take pageLimit := by
            by_cases hle : pageLimit ≤ (store.drop offset).length
            · have h1 : ((store.drop offset).take pageLimit).length = pageLimit := by
                rw [List.length_take]
                exact inf_eq_left.mpr hle
              rw [h1]
            · push_neg at hle
              have h1 : ((store.drop offset).take pageLimit).length
                  = (store.drop offset).length := by
                rw [List.length_take]
                exact inf_eq_right.mpr (Nat.le_of_lt hle)
              rw [h1, List.take_length, List.take_of_length_le (Nat.le_of_lt hle)]
          calc (store.drop offset).take pageLimit
                ++ ((store.drop offset).drop
                      ((store.drop offset).take pageLimit).length).take
                    (total - (current + ((store.drop offset).take pageLimit).length))
              = (store.drop offset).take
                    ((store.drop offset).take pageLimit).length
                ++ ((store.drop offset).drop
                      ((store.drop offset).take pageLimit).length).take
                    (total - (current + ((store.drop offset).take pageLimit).length)) := by
                rw [hpt]
            _ = (store.drop offset).take
                  (((store.drop offset).take pageLimit).length
                    + (total - (current + ((store.drop offset).take pageLimit).length))) :=
                (List.take_add _ _ _).symm
            _ = (store.drop offset).take (total - current) := by
                congr 1
                omega

/-- Helper: every page size requested by the user pagination loop is the
fixed `pageLimit` it was started with. -/
theorem userLoop_trace_fixed (store : List Photo) (pageLimit total : Nat) :
    ∀ (fuel offset current : Nat),
      ((userLoop store pageLimit total offset current fuel).2.all
        fun x => x == pageLimit) = true := by
  intro fuel
  induction fuel with
  | zero => intro offset current; rfl
  | succ fuel ih =>
      intro offset current
      by_cases hie : ((store.drop offset).take pageLimit).isEmpty = true
      · simp [userLoop, hie]
      · have hie2 : ((store.drop offset).take pageLimit).isEmpty = false := by
          cases h2 : ((store.drop offset).take pageLimit).isEmpty with
          | false => rfl
          | true => exact absurd h2 hie
        by_cases hstop : total ≤ current + ((store.drop offset).take pageLimit).length
        · simp only [userLoop, hie2, Bool.false_eq_true, if_false, hstop, if_true]
          simp
        · simp only [userLoop, hie2, Bool.false_eq_true, if_false, hstop, if_true,
            List.all_cons]
          rw [ih (offset + ((store.drop offset).take pageLimit).length)
            (current + ((store.drop offset).take pageLimit).length)]
          simp

set_option maxRecDepth 100000

/-- C5 counterexample: on a backing store of 250 photos with no limit, the
user branch performs 4 RPC rounds, not 3 — the round that yields the final
50 photos leaves the yielded count below the 2^31 sentinel, so one more
round is issued and returns zero photos. -/
theorem user_pagination_250_is_four_rounds :
    (getChatPhotosUser (photoRange 250) 0).2.length = 4
    ∧ 3 < (getChatPhotosUser (photoRange 250) 0).2.length := by
  exact ⟨by decide, by decide⟩

/-- C5 amended: each RPC round of the user branch requests the fixed page
size min(100, total) computed once before the loop (total being 2^31 when
limit is 0); the photos yielded are the first `total` elements of the backing
store in original order; on a 250-photo store with no limit the loop performs
exactly 4 RPC rounds (the last returning zero photos) and yields all 250
photos in order. -/
theorem user_pagination_fixed_page_and_rounds :
    (∀ (store : List Photo) (limit : Nat),
        (getChatPhotosUser store limit).1
          = store.take (if limit = 0 then 2 ^ 31 else limit))
    ∧ (∀ (store : List Photo) (limit : Nat),
        ((getChatPhotosUser store limit).2.all
          fun x => x == min 100 (if limit = 0 then 2 ^ 31 else limit)) = true)
    ∧ getChatPhotosUser (photoRange 250) 0
        = (photoRange 250, [100, 100, 100, 100]) := by
  refine ⟨fun store limit => ?_, fun store limit => ?_, by decide⟩
  · unfold getChatPhotosUser
    have htot : 1 ≤ (if limit = 0 then 2 ^ 31 else limit) := by
      by_cases h0 : limit = 0
      · simp [h0]
      · simp [h0]; omega
    have h := userLoop_yield store (min 100 (if limit = 0 then 2 ^ 31 else limit))
      (if limit = 0 then 2 ^ 31 else limit)
      (by have : (1 : Nat) ≤ 100 := by omega
          exact le_min this htot)
      (store.length + 1) 0 0 (by omega) (by omega)
    simpa using h
  · unfold getChatPhotosUser
    exact userLoop_trace_fixed store _ _ (store.length + 1) 0 0

end Hydrogram
